import Mathlib

/-
Shallow embedding of src/custom_libs/subliminal_patch/providers/subx.py
(the SubX subtitle provider: query tiering, retry/backoff, season-pack
filtering and match scoring).
-/

namespace Subx

/-! ## Title sanitisation (`_series_sanitizer`, lines 35-40) -/

/-- Replaces each maximal run of characters satisfying `p` with the single
character `rep`, mirroring a regex substitution with pattern `[..]+`; the
flag records whether the previous character was part of a run. -/
def collapseRunsAux (p : Char → Bool) (rep : Char) : Bool → List Char → List Char
  | _, [] => []
  | inRun, c :: cs =>
    if p c then
      if inRun then collapseRunsAux p rep true cs
      else rep :: collapseRunsAux p rep true cs
    else c :: collapseRunsAux p rep false cs

/-- Replaces each maximal run of characters satisfying `p` with the single
character `rep`. -/
def collapseRuns (p : Char → Bool) (rep : Char) (l : List Char) : List Char :=
  collapseRunsAux p rep false l

/-- Python `str.strip`: removes leading and trailing whitespace. -/
def stripWs (l : List Char) : List Char :=
  ((l.dropWhile Char.isWhitespace).reverse.dropWhile Char.isWhitespace).reverse

/-- Embedding of `_series_sanitizer` (subx.py lines 35-40):
`re.sub(r"[._]+", " ", title)` then `re.sub(r"\s+", " ", title).strip()`.
Whitespace is modelled by `Char.isWhitespace`. -/
def seriesSanitizer (title : String) : String :=
  let l1 := collapseRuns (fun c => c = '.' || c = '_') ' ' title.toList
  let l2 := collapseRuns Char.isWhitespace ' ' l1
  String.mk (stripWs l2)

/-! ## Raw result items (the dicts in `data["items"]`) -/

/-- One raw result item of the JSON search response. Optional fields model
`item.get(...)` returning `None` when the key is absent. `id` is `none`
exactly when the `"id"` key is missing, in which case the subscript
`item["id"]` raises a `KeyError`. Season and episode numbers are modelled
as natural numbers. -/
structure RawItem where
  id : Option String
  title : Option String
  description : Option String
  uploader_name : Option String
  page_url : Option String
  season : Option Nat
  episode : Option Nat
  deriving DecidableEq, Repr

/-! ## HTTP attempts and the retry loop of `run_query` (lines 229-295) -/

/-- Outcome of one HTTP attempt against the search endpoint, as seen by the
`try` block: either a response with a status code (`parse` is the parsed
`items` list when `response.json()` succeeds and carries the items of the
body, `none` when parsing raises `JSONDecodeError`), or a transport
exception raised by `session.get`. -/
inductive Attempt where
  | resp (code : Nat) (parse : Option (List RawItem))
  | exc
  deriving DecidableEq, Repr

/-- What one iteration of the retry loop does: return `[]` from `run_query`,
sleep `w` seconds and continue with the next attempt, or break out of the
loop with parsed data. -/
inductive StepRes where
  | retEmpty
  | sleepCont (w : Nat)
  | success (items : List RawItem)
  deriving DecidableEq, Repr

/-- The `except Exception` handler (lines 283-291): any exception raised in
the `try` block — including the `ConfigurationError` raised on 401 and the
`APIThrottled` raised on the last 429 — is caught here; if attempts remain
it sleeps `2^attempt` and continues, otherwise `run_query` returns `[]`. -/
def exceptHandler (maxRetries i : Nat) : StepRes :=
  if i < maxRetries - 1 then .sleepCont (2 ^ i) else .retEmpty

/-- One iteration of the retry loop (lines 233-291) at 0-indexed attempt
`i`. Status dispatch follows the elif chain: 400 and 404 return `[]`
immediately; 401 raises `ConfigurationError` (caught by the blanket
handler); 429 sleeps and retries, raising `APIThrottled` on the last
attempt (also caught); >=500 sleeps and retries, returning `[]` on the
last attempt; remaining codes >=400 raise via `response.raise_for_status()`
(caught); otherwise `response.json()` either yields data (break) or raises
`JSONDecodeError` (caught). -/
def attemptStep (maxRetries i : Nat) (a : Attempt) : StepRes :=
  match a with
  | .exc => exceptHandler maxRetries i
  | .resp code parse =>
    if code = 400 then .retEmpty
    else if code = 401 then exceptHandler maxRetries i
    else if code = 404 then .retEmpty
    else if code = 429 then
      if i < maxRetries - 1 then .sleepCont (2 ^ i) else exceptHandler maxRetries i
    else if 500 ≤ code then
      if i < maxRetries - 1 then .sleepCont (2 ^ i) else .retEmpty
    else if 400 ≤ code then exceptHandler maxRetries i
    else
      match parse with
      | some items => .success items
      | none => exceptHandler maxRetries i

/-- Trace of one `run_query` retry loop: the parsed data if the loop broke
with a 2xx body (`none` means the loop ended by `return []` or fell
through with `data is None`), the backoff delays slept in order, and the
number of HTTP attempts performed. -/
structure LoopTrace where
  data : Option (List RawItem)
  sleeps : List Nat
  attempts : Nat
  deriving DecidableEq, Repr

/-- The retry loop `for attempt in range(max_retries)` with the environment
`env` giving the outcome of each HTTP attempt; `i` is the current attempt
index and `fuel` the number of remaining iterations. -/
def runLoop (env : Nat → Attempt) (maxRetries : Nat) : Nat → Nat → LoopTrace
  | _, 0 => ⟨none, [], 0⟩
  | i, fuel + 1 =>
    match attemptStep maxRetries i (env i) with
    | .retEmpty => ⟨none, [], 1⟩
    | .success items => ⟨some items, [], 1⟩
    | .sleepCont w =>
      let t := runLoop env maxRetries (i + 1) fuel
      ⟨t.data, w :: t.sleeps, t.attempts + 1⟩

/-- The full retry phase of `run_query` with `max_retries = 3`
(line 230). -/
def retryPhase (env : Nat → Attempt) : LoopTrace :=
  runLoop env 3 0 3

/-! ## Search parameters (lines 206-226) -/

/-- The video attributes `run_query` reads. For an episode,
`video.season`/`video.episode` are the season and episode numbers;
`imdb_id` is `none` when the attribute is absent (Python
`hasattr(video, 'imdb_id')` false), and `year` likewise. -/
structure Video where
  imdb_id : Option String
  year : Option Nat
  season : Nat
  episode : Nat
  deriving DecidableEq, Repr

/-- Python truthiness of an optional string: present and non-empty. -/
def optStrTruthy : Option String → Bool
  | none => false
  | some s => s ≠ ""

/-- Python truthiness of an optional natural: present and non-zero. -/
def optNatTruthy : Option Nat → Bool
  | none => false
  | some n => n ≠ 0

/-- The query-parameter dict sent to the search endpoint. -/
structure Params where
  limit : Nat
  video_type : String
  imdb_id : Option String
  title : Option String
  year : Option Nat
  deriving DecidableEq, Repr

/-- Parameter building of `run_query` (lines 206-225): `limit=200` and the
video type always; then `imdb_id` when the video has a truthy `imdb_id`
(the `title` key is then never set), else `title=query` when the query is
truthy, else `run_query` returns `[]` without any HTTP attempt (modelled
by `none`); finally `year` when truthy. -/
def buildParams (video : Video) (query : Option String) (vtype : String) :
    Option Params :=
  if optStrTruthy video.imdb_id then
    some ⟨200, vtype, video.imdb_id, none,
      if optNatTruthy video.year then video.year else none⟩
  else if optStrTruthy query then
    some ⟨200, vtype, none, query,
      if optNatTruthy video.year then video.year else none⟩
  else
    none

/-! ## Building a subtitle from an item (lines 337-352, 357-372) -/

/-- The fields of a constructed `SubxSubtitle` that the claims depend on. -/
structure SubRec where
  page_link : Option String
  title : Option String
  description : Option String
  uploader : String
  download_url : String
  season : Option Nat
  episode : Option Nat
  deriving DecidableEq, Repr

/-- The error value standing for a Python `KeyError: 'id'`. -/
def keyErrorId : String := "KeyError: id"

/-- The base URL of the API (line 28). -/
def subxBaseUrl : String := "https://subx-api.duckdns.org"

/-- Page-URL computation (lines 338-340 and 358-360):
`page_url = item.get("page_url")`, and if that is falsy and `item.get("id")`
is truthy, derive it from the id. -/
def effectivePageUrl (item : RawItem) : Option String :=
  if optStrTruthy item.page_url then item.page_url
  else if optStrTruthy item.id then
    some (subxBaseUrl ++ "/api/subtitles/" ++ item.id.getD "" )
  else item.page_url

/-- Construction of one `SubxSubtitle` from an item (lines 342-352 and
362-372). The f-string for `download_url` subscripts `item["id"]`, which
raises a `KeyError` when the `"id"` key is absent; every other field uses
`item.get` with a default and cannot fail. -/
def buildSubtitle (item : RawItem) : Except String SubRec :=
  match item.id with
  | none => .error keyErrorId
  | some theId =>
    .ok ⟨effectivePageUrl item,
      item.title,
      item.description,
      item.uploader_name.getD "unknown",
      subxBaseUrl ++ "/api/subtitles/" ++ theId ++ "/download",
      item.season,
      item.episode⟩

/-! ## Season/episode filtering of `run_query` (lines 303-376) -/

/-- Builds a subtitle from each item in order, appending to `acc`; a
`KeyError` raised by any construction aborts the loop (used for the main
loop's append and for the season-pack fallback loop, lines 357-372). -/
def buildAll : List RawItem → List SubRec → Except String (List SubRec)
  | [], acc => .ok acc
  | item :: rest, acc =>
    match buildSubtitle item with
    | .error e => .error e
    | .ok s => buildAll rest (acc ++ [s])

/-- The filtering loop over `data["items"]` (lines 307-352), carrying the
accumulated `subtitles` and `season_packs` lists. An item is skipped when
`season` is set and the item's season differs; with `episode` set, an
exact episode match is built and appended, a season pack (`episode`
absent, season equal to the filter value) is saved as a fallback, and any
other episode is skipped; with `episode` unset every season-surviving item
is built and appended. -/
def filterLoop (season episode : Option Nat) :
    List RawItem → List SubRec → List RawItem →
    Except String (List SubRec × List RawItem)
  | [], subs, packs => .ok (subs, packs)
  | item :: rest, subs, packs =>
    if season ≠ none ∧ item.season ≠ season then
      filterLoop season episode rest subs packs
    else if episode ≠ none then
      if item.episode = episode then
        match buildSubtitle item with
        | .error e => .error e
        | .ok s => filterLoop season episode rest (subs ++ [s]) packs
      else if item.episode = none ∧ item.season = season then
        filterLoop season episode rest subs (packs ++ [item])
      else
        filterLoop season episode rest subs packs
    else
      match buildSubtitle item with
      | .error e => .error e
      | .ok s => filterLoop season episode rest (subs ++ [s]) packs

/-- The result-processing phase of `run_query` (lines 303-376): run the
filtering loop, then, when an episode filter is set and no exact match was
kept but season packs exist, emit the season packs instead (lines
354-372). An `error` value is a `KeyError` raised while building a
subtitle, which propagates out of `run_query`. -/
def processItems (items : List RawItem) (season episode : Option Nat) :
    Except String (List SubRec) :=
  match filterLoop season episode items [] [] with
  | .error e => .error e
  | .ok (subs, packs) =>
    if episode ≠ none ∧ subs = [] ∧ packs ≠ [] then buildAll packs []
    else .ok subs

/-! ## The complete `run_query` (lines 192-376) -/

/-- Everything observable about one `run_query` call: the returned list or
the raised `KeyError`, the backoff delays slept, and the number of HTTP
attempts performed. -/
structure QueryTrace where
  result : Except String (List SubRec)
  sleeps : List Nat
  attempts : Nat
  deriving Repr

/-- The complete `run_query` (lines 192-376): build parameters (returning
`[]` with no HTTP attempt when neither `imdb_id` nor a truthy query is
available), run the retry loop against the attempt environment `env`, and
process the parsed items; when the loop ends without data, return `[]`
(lines 293-295). -/
def run_query (video : Video) (query : Option String) (vtype : String)
    (season episode : Option Nat) (env : Nat → Attempt) : QueryTrace :=
  match buildParams video query vtype with
  | none => ⟨.ok [], [], 0⟩
  | some _ =>
    let t := retryPhase env
    match t.data with
    | none => ⟨.ok [], t.sleeps, t.attempts⟩
    | some items => ⟨processItems items season episode, t.sleeps, t.attempts⟩

/-! ## `SubxSubtitle.get_matches` (lines 113-149) -/

/-- The dynamic type of the video passed to `get_matches`: an `Episode`
with its season and episode numbers, or a `Movie`. -/
inductive VideoObj where
  | episode (season : Nat) (epnum : Nat)
  | movie
  deriving DecidableEq, Repr

/-- Embedding of `SubxSubtitle.get_matches` (lines 113-149),
parameterised by the external `update_matches` helper `upd` (imported from
`subliminal_patch.providers.utils`, whose source is not part of this
repository): `upd` receives the current match set, the video and the
release info and yields the updated set. For an `Episode` the base set is
`{title, series, year}`; `season` is added when the subtitle's season
equals the video's; `episode` is added when the subtitle's episode equals
the video's or unconditionally when the subtitle's episode is `None`
(season pack). After the `update_matches` pass, the `episode` attribute is
re-added for season packs when it was present before the pass. -/
def get_matches (upd : Finset String → VideoObj → String → Finset String)
    (subSeason subEpisode : Option Nat) (releaseInfo : String)
    (video : VideoObj) : Finset String :=
  match video with
  | .episode vs ve =>
    let m1 : Finset String := {"title", "series", "year"}
    let m2 := if subSeason = some vs then insert "season" m1 else m1
    let m3 :=
      match subEpisode with
      | some e => if e = ve then insert "episode" m2 else m2
      | none => insert "episode" m2
    let m4 := upd m3 video releaseInfo
    if subEpisode = none ∧ "episode" ∈ m3 then insert "episode" m4 else m4
  | .movie =>
    let m1 : Finset String := {"title", "year"}
    upd m1 video releaseInfo

/-! ## `list_subtitles` (lines 378-464) -/

/-- One call to `run_query` as issued by `list_subtitles`: the query text
and the `video_type`, `season` and `episode` arguments. -/
structure QueryCall where
  query : String
  vtype : String
  season : Option Nat
  episode : Option Nat
  deriving DecidableEq, Repr

/-- Python `f"{n:02d}"` for a natural number. -/
def fmt02 (n : Nat) : String :=
  if n < 10 then "0" ++ toString n else toString n

/-- The three query tiers `list_subtitles` issues for one sanitised episode
title (lines 401-443), in source order: exact episode
`"{title} S{ss}E{ee}"` with season and episode filters set, season-only
`"{title} S{ss}"` with the season filter set and no episode filter, and
the bare title with the season filter set and no episode filter. -/
def tierQueries (title : String) (s e : Nat) : List QueryCall :=
  [⟨title ++ " S" ++ fmt02 s ++ "E" ++ fmt02 e, "episode", some s, some e⟩,
   ⟨title ++ " S" ++ fmt02 s, "episode", some s, none⟩,
   ⟨title, "episode", some s, none⟩]

/-- Runs the tiers of one title in order against `rq` (the `run_query`
callee), stopping at the first non-empty result (`break`, lines 412-443);
returns the trace of calls issued and the final `subtitles` value. An
`error` is an exception propagating out of `run_query`. -/
def runTiers (rq : QueryCall → Except String (List SubRec)) :
    List QueryCall → Except String (List QueryCall × List SubRec)
  | [] => .ok ([], [])
  | q :: rest =>
    match rq q with
    | .error err => .error err
    | .ok subs =>
      if subs = [] then
        match runTiers rq rest with
        | .error err => .error err
        | .ok (tr, res) => .ok (q :: tr, res)
      else
        .ok ([q], subs)

/-- The episode branch of `list_subtitles` (lines 394-445): for each raw
title in order, sanitise it, run its three tiers, and stop at the first
title whose tiers produced a non-empty result; otherwise continue with the
next title. Returns the trace of `run_query` calls and the final result
list. -/
def list_subtitles_ep (rq : QueryCall → Except String (List SubRec)) :
    List String → Nat → Nat → Except String (List QueryCall × List SubRec)
  | [], _, _ => .ok ([], [])
  | t :: rest, s, e =>
    match runTiers rq (tierQueries (seriesSanitizer t) s e) with
    | .error err => .error err
    | .ok (tr, res) =>
      if res = [] then
        match list_subtitles_ep rq rest s e with
        | .error err => .error err
        | .ok (tr2, r2) => .ok (tr ++ tr2, r2)
      else
        .ok (tr, res)

/-- The movie branch of `list_subtitles` (lines 450-462): one query per
title, the raw title passed to `run_query` directly (no sanitiser on this
path), stopping at the first non-empty result. -/
def list_subtitles_movie (rq : QueryCall → Except String (List SubRec)) :
    List String → Except String (List QueryCall × List SubRec)
  | [] => .ok ([], [])
  | t :: rest =>
    match rq ⟨t, "movie", none, none⟩ with
    | .error err => .error err
    | .ok subs =>
      if subs = [] then
        match list_subtitles_movie rq rest with
        | .error err => .error err
        | .ok (tr, r) => .ok (⟨t, "movie", none, none⟩ :: tr, r)
      else
        .ok ([⟨t, "movie", none, none⟩], subs)

/-- The `run_query` callee as `list_subtitles` invokes it, over a per-call
attempt environment `env`. -/
def rqOf (video : Video) (env : QueryCall → Nat → Attempt) (q : QueryCall) :
    Except String (List SubRec) :=
  (run_query video (some q.query) q.vtype q.season q.episode (env q)).result

/-- `list_subtitles` for an episode video, composed with the real
`run_query`. -/
def list_subtitles_full (video : Video) (titles : List String)
    (env : QueryCall → Nat → Attempt) :
    Except String (List QueryCall × List SubRec) :=
  list_subtitles_ep (rqOf video env) titles video.season video.episode

/-! ## Retry-policy lemmas -/

/-- An attempt outcome the retry policy treats as transient: a transport
exception, a 5xx response, or a response whose body fails to parse. -/
def transientAttempt (a : Attempt) : Prop :=
  a = .exc ∨
  (∃ c p, a = .resp c p ∧ 500 ≤ c) ∨
  (∃ c, a = .resp c none ∧ c < 400)

/-- An attempt outcome that takes the backoff path: a transient outcome or
a 429 response. -/
def retriedAttempt (a : Attempt) : Prop :=
  transientAttempt a ∨ ∃ p, a = .resp 429 p

lemma attemptStep_retried (a : Attempt) (h : retriedAttempt a) (i : Nat) :
    attemptStep 3 i a = exceptHandler 3 i := by
  rcases h with (rfl | ⟨c, p, rfl, hc⟩ | ⟨c, rfl, hc⟩) | ⟨p, rfl⟩
  · rfl
  · have h400 : c ≠ 400 := by omega
    have h401 : c ≠ 401 := by omega
    have h404 : c ≠ 404 := by omega
    have h429 : c ≠ 429 := by omega
    simp only [attemptStep, if_neg h400, if_neg h401, if_neg h404,
      if_neg h429, if_pos hc, exceptHandler]
  · have h400 : c ≠ 400 := by omega
    have h401 : c ≠ 401 := by omega
    have h404 : c ≠ 404 := by omega
    have h429 : c ≠ 429 := by omega
    have h5 : ¬ 500 ≤ c := by omega
    have h4 : ¬ 400 ≤ c := by omega
    simp only [attemptStep, if_neg h400, if_neg h401, if_neg h404,
      if_neg h429, if_neg h5, if_neg h4]
  · simp only [attemptStep, exceptHandler]
    norm_num
    split_ifs with h
    · exact fun _ => rfl
    · exact h

lemma retried_trace (env : Nat → Attempt) (h : ∀ i, retriedAttempt (env i)) :
    retryPhase env = ⟨none, [1, 2], 3⟩ := by
  have h0 := attemptStep_retried _ (h 0) 0
  have h1 := attemptStep_retried _ (h 1) 1
  have h2 := attemptStep_retried _ (h 2) 2
  simp [retryPhase, runLoop, h0, h1, h2, exceptHandler]

lemma run_query_of_params_some {video : Video} {query : Option String}
    {vtype : String} (hp : (buildParams video query vtype).isSome = true)
    (season episode : Option Nat) (env : Nat → Attempt) :
    run_query video query vtype season episode env =
      match (retryPhase env).data with
      | none => ⟨.ok [], (retryPhase env).sleeps, (retryPhase env).attempts⟩
      | some items =>
          ⟨processItems items season episode, (retryPhase env).sleeps,
            (retryPhase env).attempts⟩ := by
  obtain ⟨p, hp'⟩ := Option.isSome_iff_exists.mp hp
  unfold run_query
  rw [hp']

lemma attemptStep_401 (p : Option (List RawItem)) (i : Nat) :
    attemptStep 3 i (.resp 401 p) = exceptHandler 3 i := by
  simp [attemptStep]

lemma trace_401 (p : Option (List RawItem)) :
    retryPhase (fun _ => .resp 401 p) = ⟨none, [1, 2], 3⟩ := by
  simp [retryPhase, runLoop, attemptStep_401, exceptHandler]

/-- C1: the claim says an HTTP 401 makes `run_query` raise
`ConfigurationError` immediately, with no retry, no backoff sleep and no
further HTTP attempt, the error propagating to the caller. The code
contradicts this: the `ConfigurationError` raised at line 248 sits inside
the `try` block whose blanket `except Exception` (line 283) catches it, so
a persistent 401 is retried three times with backoff sleeps of 1 and 2
seconds and `run_query` finally returns `[]` instead of raising. -/
theorem C1_401_swallowed :
    run_query ⟨none, none, 3, 13⟩ (some "Breaking Bad S03E13") "episode"
      (some 3) (some 13) (fun _ => .resp 401 none) =
      ⟨.ok [], [1, 2], 3⟩ := by
  rw [run_query_of_params_some (by rfl), trace_401]

/-- C2: the claim says that with a 429 on all three attempts `run_query`
terminates by raising `APIThrottled` to the caller rather than returning
an empty result. The code contradicts this: the `APIThrottled` raised on
the last attempt (line 264) is caught by the blanket `except Exception`
handler (line 283), whose last-attempt branch returns `[]`; the caller
sees an empty list, not a rate-limit error. -/
theorem C2_429_swallowed :
    run_query ⟨none, none, 3, 13⟩ (some "Breaking Bad S03E13") "episode"
      (some 3) (some 13) (fun _ => .resp 429 none) =
      ⟨.ok [], [1, 2], 3⟩ := by
  rw [run_query_of_params_some (by rfl),
    retried_trace _ (fun i => Or.inr ⟨none, rfl⟩)]

/-- C6: every non-fatal failure degrades to an empty result list rather
than an exception: HTTP 400 and HTTP 404 return `[]` immediately after a
single HTTP attempt with no backoff sleep, and environments whose every
attempt is transient (5xx, transport exception, or parse failure) return
`[]` after all three attempts. -/
theorem C6_nonfatal_degrades (video : Video) (query : Option String)
    (vtype : String) (season episode : Option Nat)
    (hp : (buildParams video query vtype).isSome = true) :
    (∀ p, run_query video query vtype season episode
        (fun _ => .resp 400 p) = ⟨.ok [], [], 1⟩) ∧
    (∀ p, run_query video query vtype season episode
        (fun _ => .resp 404 p) = ⟨.ok [], [], 1⟩) ∧
    (∀ env, (∀ i, transientAttempt (env i)) →
      run_query video query vtype season episode env = ⟨.ok [], [1, 2], 3⟩) := by
  refine ⟨fun p => ?_, fun p => ?_, fun env henv => ?_⟩
  · rw [run_query_of_params_some hp]
    have h : retryPhase (fun _ => .resp 400 p) = ⟨none, [], 1⟩ := by
      simp [retryPhase, runLoop, attemptStep]
    rw [h]
  · rw [run_query_of_params_some hp]
    have h : retryPhase (fun _ => .resp 404 p) = ⟨none, [], 1⟩ := by
      simp [retryPhase, runLoop, attemptStep]
    rw [h]
  · rw [run_query_of_params_some hp, retried_trace env (fun i => Or.inl (henv i))]

/-- Witness for C6 at a concrete input. -/
theorem C6_nonfatal_degrades_witness :
    run_query ⟨none, none, 1, 1⟩ (some "q") "episode" none none
      (fun _ => .resp 400 none) = ⟨.ok [], [], 1⟩ :=
  (C6_nonfatal_degrades ⟨none, none, 1, 1⟩ (some "q") "episode" none none
    (by rfl)).1 none

/-- C7: for retried failures (429, 5xx, transport or parse exceptions) a
backoff of exactly `2 ^ attempt` seconds is slept before each subsequent
attempt and none after the final one: across the three attempts the slept
delays are `[2^0, 2^1]`, totalling 3 seconds. -/
theorem C7_backoff_schedule (video : Video) (query : Option String)
    (vtype : String) (season episode : Option Nat) (env : Nat → Attempt)
    (hp : (buildParams video query vtype).isSome = true)
    (henv : ∀ i, retriedAttempt (env i)) :
    (run_query video query vtype season episode env).sleeps = [2 ^ 0, 2 ^ 1] ∧
    (run_query video query vtype season episode env).sleeps.sum = 3 ∧
    (run_query video query vtype season episode env).attempts = 3 := by
  rw [run_query_of_params_some hp, retried_trace env henv]
  norm_num

/-- Witness for C7 at a concrete input: a 429 on every attempt. -/
theorem C7_backoff_schedule_witness :
    (run_query ⟨none, none, 1, 1⟩ (some "q") "episode" none none
        (fun _ => .resp 429 none)).sleeps = [2 ^ 0, 2 ^ 1] ∧
    (run_query ⟨none, none, 1, 1⟩ (some "q") "episode" none none
        (fun _ => .resp 429 none)).sleeps.sum = 3 ∧
    (run_query ⟨none, none, 1, 1⟩ (some "q") "episode" none none
        (fun _ => .resp 429 none)).attempts = 3 :=
  C7_backoff_schedule ⟨none, none, 1, 1⟩ (some "q") "episode" none none _
    (by rfl) (fun i => Or.inr ⟨none, rfl⟩)

/-- C9: when the video has a truthy `imdb_id`, every request built by
`run_query` carries `imdb_id` and omits the `title` parameter entirely,
whatever query text the tier supplied; hence any two tiers of the same
title — in particular the season-only and title-only tiers — send
identical request parameters. -/
theorem C9_imdb_overrides_title (video : Video)
    (himdb : optStrTruthy video.imdb_id = true) (vtype : String) :
    (∀ q : Option String,
      buildParams video q vtype =
        some ⟨200, vtype, video.imdb_id, none,
          if optNatTruthy video.year then video.year else none⟩) ∧
    (∀ q1 q2 : Option String,
      buildParams video q1 vtype = buildParams video q2 vtype) ∧
    (∀ (t : String) (s e : Nat) (qc : QueryCall), qc ∈ tierQueries t s e →
      buildParams video (some qc.query) vtype =
        some ⟨200, vtype, video.imdb_id, none,
          if optNatTruthy video.year then video.year else none⟩) := by
  have key : ∀ q : Option String,
      buildParams video q vtype =
        some ⟨200, vtype, video.imdb_id, none,
          if optNatTruthy video.year then video.year else none⟩ := by
    intro q
    simp [buildParams, himdb]
  exact ⟨key, fun q1 q2 => by rw [key, key], fun t s e qc _ => key _⟩

/-- Witness for C9 at a concrete input. -/
theorem C9_imdb_overrides_title_witness :
    buildParams ⟨some "tt0903747", some 2008, 3, 13⟩ (some "anything")
      "episode" = some ⟨200, "episode", some "tt0903747", none, some 2008⟩ := by
  have h := (C9_imdb_overrides_title ⟨some "tt0903747", some 2008, 3, 13⟩
    (by rfl) "episode").1 (some "anything")
  simpa using h

/-! ## Result-filter lemmas (claim C3) -/

/-- The items an exact-episode search keeps as primary matches: season
equal to the wanted season and episode equal to the wanted episode. -/
def primaryOf (items : List RawItem) (s e : Nat) : List RawItem :=
  items.filter fun it => it.season == some s && it.episode == some e

/-- The items an exact-episode search sets aside as season packs: season
equal to the wanted season, episode absent. -/
def packsOf (items : List RawItem) (s : Nat) : List RawItem :=
  items.filter fun it => it.season == some s && it.episode == none

lemma buildAll_ok_length :
    ∀ (l : List RawItem) (acc bs : List SubRec),
      buildAll l acc = .ok bs → bs.length = acc.length + l.length := by
  intro l
  induction l with
  | nil =>
    intro acc bs h
    simp only [buildAll] at h
    cases h
    simp
  | cons it rest ih =>
    intro acc bs h
    simp only [buildAll] at h
    cases hb : buildSubtitle it with
    | error err => rw [hb] at h; cases h
    | ok s =>
      rw [hb] at h
      have := ih (acc ++ [s]) bs h
      simp only [List.length_append, List.length_cons, List.length_nil] at this ⊢
      omega

lemma filterLoop_eq (s e : Nat) (items : List RawItem) :
    ∀ (subs : List SubRec) (packs : List RawItem),
      filterLoop (some s) (some e) items subs packs =
        match buildAll (primaryOf items s e) subs with
        | .error err => .error err
        | .ok bs => .ok (bs, packs ++ packsOf items s) := by
  induction items with
  | nil =>
    intro subs packs
    simp [filterLoop, primaryOf, packsOf, buildAll]
  | cons it rest ih =>
    intro subs packs
    by_cases hs : it.season = some s
    · by_cases he : it.episode = some e
      · have hskip : ¬ ((some s : Option Nat) ≠ none ∧ it.season ≠ some s) := by
          simp [hs]
        have hprim : primaryOf (it :: rest) s e = it :: primaryOf rest s e := by
          simp [primaryOf, hs, he]
        have hpk : packsOf (it :: rest) s = packsOf rest s := by
          simp [packsOf, hs, he]
        rw [filterLoop, if_neg hskip, if_pos (by simp), if_pos he, hprim, hpk]
        cases hb : buildSubtitle it with
        | error err => simp [buildAll, hb]
        | ok b => simp [buildAll, hb, ih (subs ++ [b]) packs]
      · by_cases hn : it.episode = none
        · have hskip : ¬ ((some s : Option Nat) ≠ none ∧ it.season ≠ some s) := by
            simp [hs]
          have hprim : primaryOf (it :: rest) s e = primaryOf rest s e := by
            simp [primaryOf, he]
          have hpk : packsOf (it :: rest) s = it :: packsOf rest s := by
            simp [packsOf, hs, hn]
          rw [filterLoop, if_neg hskip, if_pos (by simp), if_neg he,
            if_pos ⟨hn, by rw [hs]⟩, hprim, hpk, ih subs (packs ++ [it])]
          cases buildAll (primaryOf rest s e) subs with
          | error err => rfl
          | ok bs => simp
        · have hskip : ¬ ((some s : Option Nat) ≠ none ∧ it.season ≠ some s) := by
            simp [hs]
          have hprim : primaryOf (it :: rest) s e = primaryOf rest s e := by
            simp [primaryOf, he]
          have hpk : packsOf (it :: rest) s = packsOf rest s := by
            simp [packsOf, hn]
          rw [filterLoop, if_neg hskip, if_pos (by simp), if_neg he,
            if_neg (by simp [hn]), hprim, hpk, ih subs packs]
    · have hskip : ((some s : Option Nat) ≠ none ∧ it.season ≠ some s) := by
        simp [hs]
      have hprim : primaryOf (it :: rest) s e = primaryOf rest s e := by
        simp [primaryOf, hs]
      have hpk : packsOf (it :: rest) s = packsOf rest s := by
        simp [packsOf, hs]
      rw [filterLoop, if_pos hskip, hprim, hpk, ih subs packs]

/-- C3: with both a wanted season and a wanted episode, the emitted
candidates are exactly the exact-episode (primary) matches; season packs
(season matching, episode absent) are emitted if and only if there are no
primary matches, and are never merged into a non-empty primary set. On the
concrete input `[{season 1, episode 1}, {season 1, episode none}]` with
wanted season 1 and episode 1, only the exact-episode item is returned. -/
theorem C3_exact_over_pack (items : List RawItem) (s e : Nat) :
    (processItems items (some s) (some e) =
      if primaryOf items s e ≠ [] then buildAll (primaryOf items s e) []
      else if packsOf items s ≠ [] then buildAll (packsOf items s) []
      else .ok []) ∧
    processItems
        [⟨some "a", none, none, none, none, some 1, some 1⟩,
         ⟨some "b", none, none, none, none, some 1, none⟩]
        (some 1) (some 1) =
      .ok [⟨some (subxBaseUrl ++ "/api/subtitles/a"), none, none, "unknown",
        subxBaseUrl ++ "/api/subtitles/a/download", some 1, some 1⟩] := by
  constructor
  · unfold processItems
    rw [filterLoop_eq]
    cases hb : buildAll (primaryOf items s e) [] with
    | error err =>
      have hne : primaryOf items s e ≠ [] := by
        intro h
        rw [h] at hb
        simp [buildAll] at hb
      rw [if_pos hne]
    | ok bs =>
      have hlen := buildAll_ok_length _ _ _ hb
      simp only [List.length_nil, Nat.zero_add] at hlen
      by_cases hp : primaryOf items s e = []
      · have hbs : bs = [] := by
          rw [hp] at hlen
          simpa using List.length_eq_zero.mp (by simpa using hlen)
        subst hbs
        by_cases hq : packsOf items s = []
        · simp [hp, hq]
        · simp [hp, hq]
      · have hbs : bs ≠ [] := by
          intro h
          subst h
          simp only [List.length_nil] at hlen
          exact hp (List.length_eq_zero.mp hlen.symm)
        simp [hp, hb, hbs]
  · rfl

/-! ## Missing-id items raise `KeyError` (claim C10) -/

/-- An item the main filtering loop emits directly (neither skipped nor
set aside as a season pack): it survives the season filter and, when an
episode filter is set, matches it exactly. -/
def emittedDirectly (item : RawItem) (season episode : Option Nat) : Prop :=
  (season = none ∨ item.season = season) ∧
  (episode = none ∨ item.episode = episode)

lemma buildSubtitle_id_none {item : RawItem} (h : item.id = none) :
    buildSubtitle item = .error keyErrorId := by
  simp [buildSubtitle, h]

lemma buildSubtitle_error {item : RawItem} {err : String}
    (h : buildSubtitle item = .error err) : err = keyErrorId := by
  cases hi : item.id with
  | none => simp [buildSubtitle, hi] at h; exact h.symm
  | some v => simp [buildSubtitle, hi] at h

lemma filterLoop_keyerror (season episode : Option Nat) :
    ∀ (items : List RawItem) (subs : List SubRec) (packs : List RawItem),
      (∃ it ∈ items, emittedDirectly it season episode ∧ it.id = none) →
      filterLoop season episode items subs packs = .error keyErrorId := by
  intro items
  induction items with
  | nil => intro subs packs h; simp at h
  | cons it rest ih =>
    intro subs packs h
    obtain ⟨w, hw, hwem, hwid⟩ := h
    rcases List.mem_cons.mp hw with rfl | hwrest
    · have hskip : ¬ (season ≠ none ∧ w.season ≠ season) := by
        rcases hwem.1 with h1 | h1
        · intro hc; exact hc.1 h1
        · intro hc; exact hc.2 h1
      rw [filterLoop, if_neg hskip]
      cases hep : episode with
      | none =>
        rw [if_neg (by simp), buildSubtitle_id_none hwid]
      | some e =>
        have hee : w.episode = some e := by
          rcases hwem.2 with h2 | h2
          · rw [hep] at h2; cases h2
          · rw [hep] at h2; exact h2
        rw [if_pos (by simp), if_pos hee, buildSubtitle_id_none hwid]
    · rw [filterLoop]
      by_cases hskip : season ≠ none ∧ it.season ≠ season
      · rw [if_pos hskip]
        exact ih _ _ ⟨w, hwrest, hwem, hwid⟩
      · rw [if_neg hskip]
        by_cases hep : episode ≠ none
        · rw [if_pos hep]
          by_cases he1 : it.episode = episode
          · rw [if_pos he1]
            cases hbs : buildSubtitle it with
            | error err => rw [buildSubtitle_error hbs]
            | ok b => exact ih _ _ ⟨w, hwrest, hwem, hwid⟩
          · by_cases he2 : it.episode = none ∧ it.season = season
            · rw [if_neg he1, if_pos he2]
              exact ih _ _ ⟨w, hwrest, hwem, hwid⟩
            · rw [if_neg he1, if_neg he2]
              exact ih _ _ ⟨w, hwrest, hwem, hwid⟩
        · rw [if_neg hep]
          cases hbs : buildSubtitle it with
          | error err => rw [buildSubtitle_error hbs]
          | ok b => exact ih _ _ ⟨w, hwrest, hwem, hwid⟩

lemma trace_200 (items : List RawItem) :
    retryPhase (fun _ => .resp 200 (some items)) = ⟨some items, [], 1⟩ := by
  simp [retryPhase, runLoop, attemptStep]

lemma runTiers_error_head (rq : QueryCall → Except String (List SubRec))
    (q : QueryCall) (qs : List QueryCall) (err : String) (h : rq q = .error err) :
    runTiers rq (q :: qs) = .error err := by
  unfold runTiers
  rw [h]

lemma list_subtitles_ep_error_head (rq : QueryCall → Except String (List SubRec))
    (t : String) (ts : List String) (s e : Nat) (err : String)
    (h : runTiers rq (tierQueries (seriesSanitizer t) s e) = .error err) :
    list_subtitles_ep rq (t :: ts) s e = .error err := by
  unfold list_subtitles_ep
  rw [h]

/-- C10: a 2xx response containing an item that survives the
season/episode filter but lacks an `id` field makes `run_query` raise a
`KeyError` while building the candidate's download URL instead of
returning a list, and this exception propagates out of `list_subtitles`. -/
theorem C10_missing_id_raises (items : List RawItem) (season episode : Option Nat)
    (hbad : ∃ it ∈ items, emittedDirectly it season episode ∧ it.id = none)
    (video : Video) (himdb : optStrTruthy video.imdb_id = true)
    (t : String) (ts : List String)
    (hbad2 : ∃ it ∈ items,
      emittedDirectly it (some video.season) (some video.episode) ∧
        it.id = none) :
    processItems items season episode = .error keyErrorId ∧
    list_subtitles_full video (t :: ts)
      (fun _ _ => .resp 200 (some items)) = .error keyErrorId := by
  have hproc : ∀ se ee,
      (∃ it ∈ items, emittedDirectly it se ee ∧ it.id = none) →
      processItems items se ee = .error keyErrorId := by
    intro se ee hb
    unfold processItems
    rw [filterLoop_keyerror se ee items [] [] hb]
  refine ⟨hproc _ _ hbad, ?_⟩
  unfold list_subtitles_full
  apply list_subtitles_ep_error_head
  simp only [tierQueries]
  apply runTiers_error_head
  unfold rqOf
  rw [run_query_of_params_some (by simp [buildParams, himdb]) _ _,
    trace_200]
  simpa using hproc _ _ hbad2

/-- Witness for C10 at a concrete input: one surviving item with no id. -/
theorem C10_missing_id_raises_witness :
    processItems [⟨none, some "t", none, none, none, some 1, some 1⟩]
        (some 1) (some 1) = .error keyErrorId ∧
    list_subtitles_full ⟨some "tt1", none, 1, 1⟩ ["Show"]
        (fun _ _ => .resp 200
          (some [⟨none, some "t", none, none, none, some 1, some 1⟩])) =
      .error keyErrorId :=
  C10_missing_id_raises
    [⟨none, some "t", none, none, none, some 1, some 1⟩] (some 1) (some 1)
    ⟨⟨none, some "t", none, none, none, some 1, some 1⟩, by simp,
      ⟨Or.inr rfl, Or.inr rfl⟩, rfl⟩
    ⟨some "tt1", none, 1, 1⟩ (by rfl) "Show" []
    ⟨⟨none, some "t", none, none, none, some 1, some 1⟩, by simp,
      ⟨Or.inr rfl, Or.inr rfl⟩, rfl⟩

/-! ## Match scoring (claim C4) -/

/-- Modelled from the spec: the helper `update_matches` is imported from
`subliminal_patch.providers.utils`, whose source is not part of this
repository. The spec describes it as "a secondary pass [that] derives
additional matched attributes (e.g. release-group, resolution hints) from
free-text metadata associated with the candidate, using a shared
text-based attribute matcher" — modelled as adding a derived set of
attribute names to the current match set, with the deriving heuristic
itself left abstract as the parameter `derive`. -/
def update_matches (derive : VideoObj → String → Finset String)
    (m : Finset String) (video : VideoObj) (releaseInfo : String) :
    Finset String :=
  m ∪ derive video releaseInfo

/-- C4: for an `Episode` video, a candidate whose `episode` field is
`None` (season pack) always has `episode` in the set `get_matches`
returns, whatever the `update_matches` pass does to the set — even one
that removes `episode` — because the code re-adds it afterwards; and under
the spec's description of `update_matches` as only adding derived
attributes, the base attributes `title`, `series` and `year` are in the
returned set for every candidate. -/
theorem C4_season_pack_episode_match (subSeason : Option Nat) (rel : String)
    (vs ve : Nat) :
    (∀ upd, "episode" ∈ get_matches upd subSeason none rel (.episode vs ve)) ∧
    (∀ (derive : VideoObj → String → Finset String) (subEpisode : Option Nat),
      {"title", "series", "year"} ⊆
        get_matches (update_matches derive) subSeason subEpisode rel
          (.episode vs ve)) := by
  constructor
  · intro upd
    simp only [get_matches]
    rw [if_pos ⟨by trivial, Finset.mem_insert_self _ _⟩]
    exact Finset.mem_insert_self _ _
  · intro derive subEpisode
    simp only [get_matches, update_matches]
    cases subEpisode <;>
      simp [Finset.insert_subset_iff, Finset.mem_insert, Finset.mem_union] <;>
      split_ifs <;>
      simp

/-! ## Tier ordering and early stop (claims C5, C8) -/

/-- The full list of queries an episode search would issue if every tier
of every title came back empty: for each raw title in order, the three
tiers built from its sanitised form. -/
def fullTrace (titles : List String) (s e : Nat) : List QueryCall :=
  titles.flatMap fun t => tierQueries (seriesSanitizer t) s e

lemma runTiers_pure (f : QueryCall → List SubRec) (qs : List QueryCall) :
    ∃ tr res, runTiers (fun q => .ok (f q)) qs = .ok (tr, res) ∧
      (∃ rest, qs = tr ++ rest) ∧
      ((res = [] ∧ tr = qs ∧ ∀ q ∈ tr, f q = []) ∨
       (∃ tr0 qlast, tr = tr0 ++ [qlast] ∧ (∀ q ∈ tr0, f q = []) ∧
         res = f qlast ∧ res ≠ [])) := by
  induction qs with
  | nil =>
    exact ⟨[], [], rfl, ⟨[], rfl⟩, Or.inl ⟨rfl, rfl, by simp⟩⟩
  | cons q rest ih =>
    by_cases hq : f q = []
    · obtain ⟨tr, res, hrun, ⟨rest', hrest'⟩, hdisj⟩ := ih
      refine ⟨q :: tr, res, ?_, ⟨rest', by simp [hrest']⟩, ?_⟩
      · simp [runTiers, hq, hrun]
      · rcases hdisj with ⟨hres, htr, hall⟩ | ⟨tr0, ql, htr, hall, hres, hne⟩
        · refine Or.inl ⟨hres, by rw [htr], fun x hx => ?_⟩
          rcases List.mem_cons.mp hx with rfl | hx'
          · exact hq
          · exact hall x hx'
        · refine Or.inr ⟨q :: tr0, ql, by rw [htr]; rfl, fun x hx => ?_, hres, hne⟩
          rcases List.mem_cons.mp hx with rfl | hx'
          · exact hq
          · exact hall x hx'
    · refine ⟨[q], f q, ?_, ⟨rest, rfl⟩, Or.inr ⟨[], q, rfl, by simp, rfl, hq⟩⟩
      simp [runTiers, hq]

lemma list_subtitles_ep_pure (f : QueryCall → List SubRec)
    (titles : List String) (s e : Nat) :
    ∃ tr res, list_subtitles_ep (fun q => .ok (f q)) titles s e = .ok (tr, res) ∧
      (∃ rest, fullTrace titles s e = tr ++ rest) ∧
      ((res = [] ∧ tr = fullTrace titles s e ∧ ∀ q ∈ tr, f q = []) ∨
       (∃ tr0 qlast, tr = tr0 ++ [qlast] ∧ (∀ q ∈ tr0, f q = []) ∧
         res = f qlast ∧ res ≠ [])) := by
  induction titles with
  | nil =>
    exact ⟨[], [], rfl, ⟨[], rfl⟩, Or.inl ⟨rfl, rfl, by simp⟩⟩
  | cons t ts ih =>
    obtain ⟨tr1, res1, hrun1, ⟨r1, hr1⟩, hdisj1⟩ :=
      runTiers_pure f (tierQueries (seriesSanitizer t) s e)
    have hfull : fullTrace (t :: ts) s e =
        tierQueries (seriesSanitizer t) s e ++ fullTrace ts s e := by
      simp [fullTrace]
    by_cases hres1 : res1 = []
    · have h1 : tr1 = tierQueries (seriesSanitizer t) s e ∧ ∀ q ∈ tr1, f q = [] := by
        rcases hdisj1 with ⟨_, htr, hall⟩ | ⟨_, _, _, _, hres, hne⟩
        · exact ⟨htr, hall⟩
        · exact absurd hres1 hne
      obtain ⟨tr2, res2, hrun2, ⟨r2, hr2⟩, hdisj2⟩ := ih
      refine ⟨tr1 ++ tr2, res2, ?_, ⟨r2, ?_⟩, ?_⟩
      · simp [list_subtitles_ep, hrun1, hres1, hrun2]
      · rw [hfull, h1.1, hr2, List.append_assoc]
      · rcases hdisj2 with ⟨hres, htr, hall⟩ | ⟨tr0, ql, htr, hall, hres, hne⟩
        · refine Or.inl ⟨hres, by rw [hfull, h1.1, htr], fun x hx => ?_⟩
          rcases List.mem_append.mp hx with hx' | hx'
          · exact h1.2 x hx'
          · exact hall x hx'
        · refine Or.inr ⟨tr1 ++ tr0, ql, by rw [htr, List.append_assoc], fun x hx => ?_, hres, hne⟩
          rcases List.mem_append.mp hx with hx' | hx'
          · exact h1.2 x hx'
          · exact hall x hx'
    · have hr : (∃ tr0 qlast, tr1 = tr0 ++ [qlast] ∧ (∀ q ∈ tr0, f q = []) ∧
          res1 = f qlast ∧ res1 ≠ []) := by
        rcases hdisj1 with ⟨hres, _, _⟩ | h
        · exact absurd hres hres1
        · exact h
      refine ⟨tr1, res1, ?_, ⟨r1 ++ fullTrace ts s e, ?_⟩, Or.inr hr⟩
      · simp [list_subtitles_ep, hrun1, hres1]
      · rw [hfull, hr1, List.append_assoc]

lemma list_subtitles_movie_pure (f : QueryCall → List SubRec)
    (titles : List String) :
    ∃ tr res, list_subtitles_movie (fun q => .ok (f q)) titles = .ok (tr, res) ∧
      ∀ q ∈ tr, ∃ t ∈ titles, q = ⟨t, "movie", none, none⟩ := by
  induction titles with
  | nil => exact ⟨[], [], rfl, by simp⟩
  | cons t ts ih =>
    by_cases hq : f ⟨t, "movie", none, none⟩ = []
    · obtain ⟨tr, res, hrun, hmem⟩ := ih
      refine ⟨⟨t, "movie", none, none⟩ :: tr, res, ?_, fun x hx => ?_⟩
      · simp [list_subtitles_movie, hq, hrun]
      · rcases List.mem_cons.mp hx with rfl | hx'
        · exact ⟨t, List.mem_cons_self t ts, rfl⟩
        · obtain ⟨t', ht', hq'⟩ := hmem x hx'
          exact ⟨t', List.mem_cons_of_mem t ht', hq'⟩
    · refine ⟨[⟨t, "movie", none, none⟩], f ⟨t, "movie", none, none⟩, ?_, fun x hx => ?_⟩
      · simp [list_subtitles_movie, hq]
      · rcases List.mem_singleton.mp hx with rfl
        exact ⟨t, List.mem_cons_self t ts, rfl⟩

/-- C5: for an episode video, each candidate title yields at most the
three tiers of `tierQueries` in their fixed order — exact episode, season
only, bare title — and the issued query trace is an initial segment of the full
title-by-title tier list; as soon as a tier yields a non-empty list, no
later tier of that title and no later title is queried (every query before
the last returned empty and the result is the last query's), while an
entirely empty search runs the whole trace. -/
theorem C5_tier_order_and_stop (f : QueryCall → List SubRec)
    (titles : List String) (s e : Nat) :
    ∃ tr res, list_subtitles_ep (fun q => .ok (f q)) titles s e = .ok (tr, res) ∧
      (∃ rest, fullTrace titles s e = tr ++ rest) ∧
      ((res = [] ∧ tr = fullTrace titles s e ∧ ∀ q ∈ tr, f q = []) ∨
       (∃ tr0 qlast, tr = tr0 ++ [qlast] ∧ (∀ q ∈ tr0, f q = []) ∧
         res = f qlast ∧ res ≠ [])) :=
  list_subtitles_ep_pure f titles s e

/-- C8 counterexample: the claim says both episodic and movie searches
sanitise each raw title before building its query text, but the movie
branch of `list_subtitles` passes the raw title straight to `run_query`:
with the single title `"A.B"` the movie search issues the query `"A.B"`,
while its sanitised form is `"A B"`. -/
theorem C8_movie_not_sanitized :
    list_subtitles_movie (fun _ => .ok []) ["A.B"] =
      .ok ([⟨"A.B", "movie", none, none⟩], []) ∧
    seriesSanitizer "A.B" = "A B" ∧
    ("A.B" : String) ≠ "A B" :=
  ⟨rfl, rfl, by decide⟩

/-- C8 amended: episodic searches sanitise each raw candidate title before
building its tier queries (every issued episodic query belongs to the tier
set of the sanitised form of one of the raw titles), while movie searches
pass the raw title to `run_query` unsanitised. -/
theorem C8_sanitizer_episodic_only (f : QueryCall → List SubRec)
    (titles : List String) (s e : Nat) :
    (∃ tr res,
      list_subtitles_ep (fun q => .ok (f q)) titles s e = .ok (tr, res) ∧
      ∀ q ∈ tr, ∃ t ∈ titles, q ∈ tierQueries (seriesSanitizer t) s e) ∧
    (∃ tr res,
      list_subtitles_movie (fun q => .ok (f q)) titles = .ok (tr, res) ∧
      ∀ q ∈ tr, ∃ t ∈ titles, q = ⟨t, "movie", none, none⟩) := by
  constructor
  · obtain ⟨tr, res, hrun, ⟨rest, hpre⟩, _⟩ := list_subtitles_ep_pure f titles s e
    refine ⟨tr, res, hrun, fun q hq => ?_⟩
    have hmem : q ∈ fullTrace titles s e := by
      rw [hpre]
      exact List.mem_append_left _ hq
    rw [fullTrace] at hmem
    exact List.mem_flatMap.mp hmem
  · exact list_subtitles_movie_pure f titles

end Subx
